import Mathlib

/-!
Verification of the core of the dnsdb2 Python client: the Streaming
Application Framework (SAF) stream decoder (`dnsdb2/saf.py`), the status
mapping and query dispatch (`dnsdb2/client.py`), and the path/query
composer (`dnsdb2/client.py`).

The embedding is shallow: Python values decoded by `json.loads` become the
inductive type `PyJson`; the line stream delivered by
`res.iter_lines(decode_unicode=True)` becomes a `List RawLine`, abstracted
at the `json.loads` boundary; the generator `handle_saf` is embedded twice,
once as an eager trace function (`handle_saf`, the list of yielded objects
together with the way the run ends) and once as a resumable step machine
(`safLoop` / `genNext` / `genClose`) that tracks how often the `finally`
on line 66 of saf.py runs `res.close()`.  External collaborators
(`json.loads`, `requests`, `urllib.parse.quote`, `str.encode('idna')`) are
modelled from their documented behavior where the claims need them.
-/

namespace Dnsdb2

/-- A Python value as produced by `json.loads`: `None`, booleans, numbers
(only integers appear in this development), strings, lists and dicts.
A dict is kept as its key/value pairs in source order. -/
inductive PyJson where
  | null
  | bool (b : Bool)
  | int (n : Int)
  | str (s : String)
  | arr (elems : List PyJson)
  | dict (fields : List (String × PyJson))


/-- Python truthiness `bool(v)` of a JSON-decoded value: `None`, `False`,
`0`, `''`, `[]` and `{}` are falsy, everything else is truthy. -/
def PyJson.truthy : PyJson → Bool
  | .null => false
  | .bool b => b
  | .int n => n != 0
  | .str s => s != ""
  | .arr l => !l.isEmpty
  | .dict l => !l.isEmpty

/-- Whether the `json.loads` result is a Python dict. -/
def PyJson.isDict : PyJson → Bool
  | .dict _ => true
  | _ => false

/-- Python `d.get(key)` on a decoded JSON object, returning `none` for an
absent key.  `json.loads` keeps the last value for a duplicated key, so a
later pair wins. -/
def pyGet : List (String × PyJson) → String → Option PyJson
  | [], _ => none
  | (k, v) :: rest, key =>
    match pyGet rest key with
    | some r => some r
    | none => if k == key then some v else none

/-- Truthiness of the result of `d.get(key)`: an absent key gives Python
`None`, which is falsy. -/
def optTruthy : Option PyJson → Bool
  | none => false
  | some v => v.truthy

/-- Python `x == s` for a string constant `s`: true exactly when `x` is a
string with those contents (comparisons against `None`, numbers, lists or
dicts are `False`). -/
def optIsStr : Option PyJson → String → Bool
  | some (.str t), s => t == s
  | _, _ => false

/-- One line delivered by `res.iter_lines(decode_unicode=True)`, abstracted
at the `json.loads` boundary: `blank` is the empty line (falsy, skipped by
`if not line: continue`); `malformed text` is a non-empty line on which
`json.loads` raises `JSONDecodeError`; `parsed v` is a non-empty line whose
`json.loads` result is `v`. -/
inductive RawLine where
  | blank
  | malformed (text : String)
  | parsed (v : PyJson)


/-- How one full run of `handle_saf` ends.  `done` is a plain `return`
(`cond == succeeded`, or `cond == limited` with `ignore_limited`);
the two `protoError` constructors are the `ProtocolError` raises (carrying
the offending line, resp. the offending cond value); `attributeError` is
the `AttributeError` escaping from `saf_msg.get` when `json.loads`
returned a non-dict. -/
inductive Outcome where
  | done
  | protoErrorBadJson (text : String)
  | protoErrorInvalidCond (cond : PyJson)
  | queryLimited (msg : Option PyJson)
  | queryFailed (msg : Option PyJson)
  | queryTruncated
  | attributeError


/-- Lines 53-62 of saf.py: the condition dispatch that runs after the
optional `yield obj`.  `none` models `continue` (cond `ongoing` or falsy);
`some o` models `return` / `raise` with outcome `o`. -/
def condDispatch (cond msg : Option PyJson) (ignore_limited : Bool) : Option Outcome :=
  if optIsStr cond "ongoing" || !optTruthy cond then none
  else if optIsStr cond "limited" then
    some (if ignore_limited then .done else .queryLimited msg)
  else if optIsStr cond "failed" then some (.queryFailed msg)
  else some (.protoErrorInvalidCond (cond.getD .null))

/-- Eager embedding of `dnsdb2.saf.handle_saf`: the full list of objects
the generator yields, paired with how the run ends.  Mirrors the source
line by line: blank lines are skipped; an unparsable line raises
`ProtocolError`; `cond == begin` skips the line before any payload is
emitted; `cond == succeeded` returns; otherwise a truthy `obj` is yielded
and the condition dispatch of `condDispatch` runs; exhausting the stream
raises `QueryTruncated`. -/
def handle_saf : List RawLine → Bool → List PyJson × Outcome
  | [], _ => ([], .queryTruncated)
  | .blank :: rest, ig => handle_saf rest ig
  | .malformed text :: _, _ => ([], .protoErrorBadJson text)
  | .parsed (.dict fields) :: rest, ig =>
    let cond := pyGet fields "cond"
    let obj := pyGet fields "obj"
    let msg := pyGet fields "msg"
    if optIsStr cond "begin" then handle_saf rest ig
    else if optIsStr cond "succeeded" then ([], .done)
    else
      let ys := if optTruthy obj then [obj.getD .null] else []
      match condDispatch cond msg ig with
      | none => let r := handle_saf rest ig; (ys ++ r.1, r.2)
      | some o => (ys, o)
  | .parsed _ :: _, _ => ([], .attributeError)

/-- Suspension state of the generator: stopped at the `yield obj` on line
51 of saf.py, with the current line's `cond` and `msg` still to dispatch
and the suffix `rest` of the stream unread. -/
structure Suspended where
  cond : Option PyJson
  msg : Option PyJson
  rest : List RawLine

/-- Result of running the generator body from a resume point: either it
reaches the `yield` (suspending), or the frame exits with an outcome. -/
inductive StepRes where
  | yld (v : PyJson) (s : Suspended)
  | exit (o : Outcome)

/-- The for-loop of `handle_saf` run from the top of an iteration: consume
lines until an object is yielded or the frame exits. -/
def safLoop : List RawLine → Bool → StepRes
  | [], _ => .exit .queryTruncated
  | .blank :: rest, ig => safLoop rest ig
  | .malformed text :: _, _ => .exit (.protoErrorBadJson text)
  | .parsed (.dict fields) :: rest, ig =>
    let cond := pyGet fields "cond"
    let obj := pyGet fields "obj"
    let msg := pyGet fields "msg"
    if optIsStr cond "begin" then safLoop rest ig
    else if optIsStr cond "succeeded" then .exit .done
    else if optTruthy obj then .yld (obj.getD .null) ⟨cond, msg, rest⟩
    else
      match condDispatch cond msg ig with
      | none => safLoop rest ig
      | some o => .exit o
  | .parsed _ :: _, _ => .exit .attributeError

/-- Resume the generator at the yield point: run the condition dispatch of
the suspended line, then (on `continue`) keep consuming lines. -/
def resumeSuspended (s : Suspended) (ig : Bool) : StepRes :=
  match condDispatch s.cond s.msg ig with
  | none => safLoop s.rest ig
  | some o => .exit o

/-- The eager trace of the generator from a suspension point. -/
def suspTrace (s : Suspended) (ig : Bool) : List PyJson × Outcome :=
  match condDispatch s.cond s.msg ig with
  | none => handle_saf s.rest ig
  | some o => ([], o)

/-- A line the decoder passes over without ending the run: a blank line,
or a parsed object whose cond is `begin`, `ongoing`, or falsy/absent. -/
def nonTerminalLine : RawLine → Bool
  | .blank => true
  | .malformed _ => false
  | .parsed (.dict fields) =>
    optIsStr (pyGet fields "cond") "begin" ||
      (optIsStr (pyGet fields "cond") "ongoing" || !optTruthy (pyGet fields "cond"))
  | .parsed _ => false

/-- The objects a non-terminal line delivers to the caller: nothing for a
`begin` line (its payload is discarded), otherwise its `obj` when that is
truthy. -/
def lineYields : RawLine → List PyJson
  | .parsed (.dict fields) =>
    if optIsStr (pyGet fields "cond") "begin" then []
    else if optTruthy (pyGet fields "obj") then [(pyGet fields "obj").getD .null]
    else []
  | _ => []

/-- Position of the Python generator object.  `created`: not yet started
(none of the generator body has run); `suspendedAt`: stopped at the yield;
`finished`: the frame has exited, or the generator was closed before it
started. -/
inductive GenPos where
  | created (lines : List RawLine)
  | suspendedAt (s : Suspended)
  | finished

/-- A generator object together with the number of times `res.close()`
(the `finally` on line 66 of saf.py) has run so far. -/
structure GenState where
  pos : GenPos
  closeCalls : Nat

/-- Result of one `next()` call: a yielded object, or the generator is
over (`StopIteration` for `Outcome.done`, a raised exception otherwise). -/
inductive NextRes where
  | yielded (v : PyJson)
  | stopped (o : Outcome)

/-- Package a body-run result: exiting the frame runs the `finally`,
which is exactly when `res.close()` runs. -/
def stepFrom (r : StepRes) (c : Nat) : GenState × NextRes :=
  match r with
  | .yld v s => (⟨.suspendedAt s, c⟩, .yielded v)
  | .exit o => (⟨.finished, c + 1⟩, .stopped o)

/-- One `next()` call on the generator.  `next` on a finished generator
raises `StopIteration` without running any generator code. -/
def genNext (g : GenState) (ig : Bool) : GenState × NextRes :=
  match g.pos with
  | .created lines => stepFrom (safLoop lines ig) g.closeCalls
  | .suspendedAt s => stepFrom (resumeSuspended s ig) g.closeCalls
  | .finished => (g, .stopped .done)

/-- `generator.close()` - what abandoning the iteration triggers (directly,
or via the for-loop and garbage collection).  On a suspended generator,
`GeneratorExit` is thrown at the yield point and the `finally` runs.  On a
generator whose frame never started, CPython marks it closed without
executing any of its code, so the `finally` - and with it `res.close()` -
never runs.  A finished generator is left alone. -/
def genClose (g : GenState) : GenState :=
  match g.pos with
  | .created _ => ⟨.finished, g.closeCalls⟩
  | .suspendedAt _ => ⟨.finished, g.closeCalls + 1⟩
  | .finished => g

/-- A caller that performs at most `k` `next()` calls, stops if the
generator finishes on its own, and abandons the generator (closing it)
if it is still live after those calls. -/
def runCaller (g : GenState) (ig : Bool) : Nat → GenState
  | 0 => genClose g
  | k + 1 =>
    match genNext g ig with
    | (g2, .yielded _) => runCaller g2 ig k
    | (g2, .stopped _) => g2

/-- The generator object `handle_saf(res, ignore_limited=ig)` as returned
to the caller: not yet started, `res` not yet closed. -/
def mkGen (lines : List RawLine) : GenState := ⟨.created lines, 0⟩

/-- Whether the generator can still run body code. -/
def GenPos.isLive : GenPos → Bool
  | .finished => false
  | _ => true

/-- The dnsdb2 exceptions `_saf_query` can raise before the SAF decoder is
invoked.  The four mapped kinds carry `res.text` (client.py line 424);
`queryError` models `raise dnsdb2.QueryError from e` (client.py line 412),
which constructs QueryError with no arguments, so it carries no message
of its own. -/
inductive Raised where
  | accessDenied (msg : String)
  | offsetError (msg : String)
  | quotaExceeded (msg : String)
  | concurrencyExceeded (msg : String)
  | queryError

/-- client.py `_STATUS_CODE_MAP`: 401 UNAUTHORIZED and 403 FORBIDDEN map
to AccessDenied, 416 REQUESTED_RANGE_NOT_SATISFIABLE to OffsetError, 429
TOO_MANY_REQUESTS to QuotaExceeded, 503 SERVICE_UNAVAILABLE to
ConcurrencyExceeded. -/
def _STATUS_CODE_MAP : Nat → Option (String → Raised)
  | 401 => some .accessDenied
  | 403 => some .accessDenied
  | 416 => some .offsetError
  | 429 => some .quotaExceeded
  | 503 => some .concurrencyExceeded
  | _ => none

/-- Models `requests.Response.raise_for_status`, which raises `HTTPError`
exactly for client-error (400-499) and server-error (500-599) statuses. -/
def raise_for_status_raises (status : Nat) : Bool :=
  (400 ≤ status && status < 500) || (500 ≤ status && status < 600)

/-- client.py `_raise_error`, combined with `_saf_query`'s
`except requests.RequestException as e: raise dnsdb2.QueryError from e`:
a mapped status raises the mapped dnsdb2 error carrying `res.text`
(dnsdb2 exceptions are not RequestExceptions, so the wrapper leaves them
alone); otherwise `res.raise_for_status()` raises HTTPError exactly on
4xx/5xx, which the wrapper turns into a bare QueryError; any other status
raises nothing. -/
def _raise_error (status : Nat) (text : String) : Option Raised :=
  match _STATUS_CODE_MAP status with
  | some e => some (e text)
  | none => if raise_for_status_raises status then some .queryError else none

/-- client.py `_saf_query` once the GET has returned a response with the
given status and body text: either an error is raised before the body is
used as a stream, or the body is handed to the SAF decoder. -/
def _saf_query (status : Nat) (text : String) (lines : List RawLine) (ig : Bool) :
    Except Raised (List PyJson × Outcome) :=
  match _raise_error status text with
  | some e => .error e
  | none => .ok (handle_saf lines ig)

/-- The characters `urllib.parse.quote` never escapes (its always-safe
set; `safe=''` adds nothing): ASCII letters, digits, and `_.-~`. -/
def quoteSafe (b : Nat) : Bool :=
  (65 ≤ b && b ≤ 90) || (97 ≤ b && b ≤ 122) || (48 ≤ b && b ≤ 57) ||
    b == 95 || b == 46 || b == 45 || b == 126

/-- Upper-case hexadecimal digit character, as `urllib.parse.quote`
emits. -/
def hexDigitChar (n : Nat) : Char :=
  if n < 10 then Char.ofNat (48 + n) else Char.ofNat (55 + n)

/-- client.py `_quote` applied to bytes:
`urllib.parse.quote(bs, safe='')` percent-encodes, in upper-case hex,
every byte outside the unreserved set. -/
def _quote (bs : List Nat) : String :=
  String.mk (bs.flatMap fun b =>
    if quoteSafe b then [Char.ofNat b]
    else ['%', hexDigitChar (b / 16), hexDigitChar (b % 16)])

/-- UTF-8 encoding of one Unicode scalar value (RFC 3629), as Python
performs when percent-encoding a str. -/
def utf8EncodeChar (c : Nat) : List Nat :=
  if c < 128 then [c]
  else if c < 2048 then [192 + c / 64, 128 + c % 64]
  else if c < 65536 then [224 + c / 4096, 128 + c / 64 % 64, 128 + c % 64]
  else [240 + c / 262144, 128 + c / 4096 % 64, 128 + c / 64 % 64, 128 + c % 64]

/-- The UTF-8 bytes of a string (`s.encode('utf-8')`). -/
def utf8Encode (s : String) : List Nat :=
  s.data.flatMap fun c => utf8EncodeChar c.toNat

/-- client.py `_quote` applied to a str: `urllib.parse.quote(s, safe='')`
encodes the string as UTF-8 and percent-encodes the resulting bytes. -/
def quoteStr (s : String) : String := _quote (utf8Encode s)

/-- Whether a byte is a UTF-8 continuation byte (0x80-0xBF). -/
def isCont (b : Nat) : Bool := 128 ≤ b && b < 192

/-- A UTF-8 decoder sufficient for decoding encoder output (it does not
reject overlong forms); `urllib.parse.unquote` performs this step after
resolving percent-escapes. -/
def utf8Decode : List Nat → Option (List Char)
  | [] => some []
  | b0 :: rest =>
    if b0 < 128 then (utf8Decode rest).map fun cs => Char.ofNat b0 :: cs
    else if b0 < 192 then none
    else if b0 < 224 then
      match rest with
      | b1 :: rest2 =>
        if isCont b1 then
          (utf8Decode rest2).map fun cs => Char.ofNat ((b0 - 192) * 64 + (b1 - 128)) :: cs
        else none
      | [] => none
    else if b0 < 240 then
      match rest with
      | b1 :: b2 :: rest2 =>
        if isCont b1 && isCont b2 then
          (utf8Decode rest2).map fun cs =>
            Char.ofNat ((b0 - 224) * 4096 + (b1 - 128) * 64 + (b2 - 128)) :: cs
        else none
      | _ => none
    else if b0 < 248 then
      match rest with
      | b1 :: b2 :: b3 :: rest2 =>
        if isCont b1 && isCont b2 && isCont b3 then
          (utf8Decode rest2).map fun cs =>
            Char.ofNat ((b0 - 240) * 262144 + (b1 - 128) * 4096 + (b2 - 128) * 64
              + (b3 - 128)) :: cs
        else none
      | _ => none
    else none

/-- The value of a hexadecimal digit character, as `urllib.parse.unquote`
accepts. -/
def hexVal (c : Char) : Option Nat :=
  if 48 ≤ c.toNat && c.toNat ≤ 57 then some (c.toNat - 48)
  else if 65 ≤ c.toNat && c.toNat ≤ 70 then some (c.toNat - 55)
  else if 97 ≤ c.toNat && c.toNat ≤ 102 then some (c.toNat - 87)
  else none

/-- Resolve the percent-escapes of a path segment back to bytes (the
byte-level phase of `urllib.parse.unquote`), strict about escapes: every
'%' must be followed by two hexadecimal digits.  This is exact on the
segments `_quote` produces, which are ASCII with well-formed escapes. -/
def percentDecode : List Char → Option (List Nat)
  | [] => some []
  | c :: rest =>
    if c = '%' then
      match rest with
      | h :: l :: rest2 =>
        match hexVal h, hexVal l, percentDecode rest2 with
        | some hv, some lv, some bs => some ((16 * hv + lv) :: bs)
        | _, _, _ => none
      | _ => none
    else (percentDecode rest).map fun bs => c.toNat :: bs

/-- `urllib.parse.unquote` on a path segment: resolve percent-escapes,
then decode the bytes as UTF-8. -/
def unquote (t : String) : Option String :=
  (percentDecode t.data).bind fun bs => (utf8Decode bs).map fun cs => String.mk cs

/-- Python truthiness of an optional string argument defaulting to None
(`if rrtype:` / `if bailiwick:`): None and the empty string are falsy. -/
def strOptTruthy : Option String → Bool
  | none => false
  | some s => s != ""

/-- str.split on one-character separators, as `encodings.idna` splits
domain names into labels. -/
def splitBy (p : Char → Bool) : List Char → List (List Char)
  | [] => [[]]
  | c :: rest =>
    match splitBy p rest with
    | g :: gs => if p c then [] :: g :: gs else (c :: g) :: gs
    | [] => [[c]]

/-- RFC 3492 digit character as a byte: 0-25 are a-z, 26-35 are 0-9. -/
def punyDigitChar (d : Nat) : Nat := if d < 26 then 97 + d else 22 + d

/-- The scaling loop of RFC 3492 bias adaptation (delta is divided by
base - tmin = 35 while it exceeds ((base - tmin) * tmax) / 2 = 455); the
fuel bounds the divisions, 32 is far more than any delta needs. -/
def punyAdaptLoop : Nat → Nat → Nat → Nat
  | 0, delta, k => k + 36 * delta / (delta + 38)
  | fuel + 1, delta, k =>
    if 455 < delta then punyAdaptLoop fuel (delta / 35) (k + 36)
    else k + 36 * delta / (delta + 38)

/-- RFC 3492 bias adaptation (damp = 700, skew = 38). -/
def punyAdapt (delta numpoints : Nat) (firsttime : Bool) : Nat :=
  let d0 := if firsttime then delta / 700 else delta / 2
  punyAdaptLoop 32 (d0 + d0 / numpoints) 0

/-- RFC 3492 generalized variable-length integer for one delta, with the
clamped thresholds tmin = 1 and tmax = 26; arguments are fuel, the digit
position weight k (starting at base = 36), the bias, and the remaining
quotient. -/
def punyVarInt : Nat → Nat → Nat → Nat → List Nat
  | 0, _, _, q => [punyDigitChar q]
  | fuel + 1, k, bias, q =>
    let t := if k ≤ bias then 1 else if bias + 26 ≤ k then 26 else k - bias
    if q < t then [punyDigitChar q]
    else punyDigitChar (t + (q - t) % (36 - t)) :: punyVarInt fuel (k + 36) bias ((q - t) / (36 - t))

/-- State of the RFC 3492 encoder main loop. -/
structure PunyState where
  n : Nat
  delta : Nat
  bias : Nat
  h : Nat
  out : List Nat

/-- One input code point examined while the encoder is working on the
code point value `st.n` (`b` is the number of basic code points). -/
def punyScanStep (b : Nat) (st : PunyState) (c : Nat) : PunyState :=
  if c < st.n then { st with delta := st.delta + 1 }
  else if c = st.n then
    { st with out := st.out ++ punyVarInt 64 36 st.bias st.delta,
              bias := punyAdapt st.delta (st.h + 1) (st.h == b),
              delta := 0, h := st.h + 1 }
  else st

/-- The smallest code point of the input that is at least `n`. -/
def punyMinAbove (n : Nat) (input : List Nat) : Nat :=
  input.foldl (fun m c => if n ≤ c && c < m then c else m) 1114112

/-- Main loop of the RFC 3492 encoder: while code points remain to be
handled, jump to the next needed code point value, account the skipped
positions into delta, scan the input, and advance.  Each iteration
handles one distinct non-basic code point value, so fuel of the input
length plus one always suffices. -/
def punyOuterLoop (input : List Nat) (b : Nat) : Nat → PunyState → PunyState
  | 0, st => st
  | fuel + 1, st =>
    if input.length ≤ st.h then st
    else
      let m := punyMinAbove st.n input
      let st1 := { st with delta := st.delta + (m - st.n) * (st.h + 1), n := m }
      let st2 := input.foldl (punyScanStep b) st1
      punyOuterLoop input b fuel { st2 with delta := st2.delta + 1, n := st2.n + 1 }

/-- RFC 3492 punycode encoding of a label given as code points, exactly
as Python's `label.encode('punycode')` produces it: the basic code
points, a '-' separator when there is at least one, then the encoded
deltas (initial n = 128, delta = 0, bias = 72). -/
def punycodeEncode (input : List Nat) : List Nat :=
  let basic := input.filter (· < 128)
  let b := basic.length
  let out0 := basic ++ (if 0 < b then [45] else [])
  (punyOuterLoop input b (input.length + 1) ⟨128, 0, 72, b, out0⟩).out

/-- Models `encodings.idna.ToASCII` for one label, with nameprep modelled
as the identity - exact for labels that are already lower-case and
NFKC-normalized, which covers every label this file evaluates it on.  An
all-ASCII label is returned verbatim when its length is 1..63; a label
already starting with the ACE marker `xn--` is rejected; otherwise the
label is punycode-encoded behind `xn--`, with the same length check.
`none` models a raised UnicodeError. -/
def toASCIILabel (l : List Char) : Option (List Nat) :=
  if l.all fun c => c.toNat < 128 then
    if 0 < l.length && l.length < 64 then some (l.map fun c => c.toNat) else none
  else if l.take 4 = ['x', 'n', '-', '-'] then none
  else
    let p := [120, 110, 45, 45] ++ punycodeEncode (l.map fun c => c.toNat)
    if 0 < p.length && p.length < 64 then some p else none

/-- The four label separators `encodings.idna` splits on in the
non-ASCII path: FULL STOP and its ideographic, fullwidth and halfwidth
forms. -/
def isIdnaDot (c : Char) : Bool :=
  c = '.' || c.toNat = 12290 || c.toNat = 65294 || c.toNat = 65377

/-- Models Python `s.encode('idna')` (`encodings.idna.Codec.encode`).
The empty string encodes to empty bytes.  An all-ASCII name takes the
fast path: split on '.', check that every label but the last has length
1..63 and the last has length at most 63, and return the bytes verbatim -
no case folding or mapping, so characters such as '/', ',' and ' ' pass
through unchanged.  A name with non-ASCII characters is split on the
IDNA dots (a trailing empty label becoming a trailing '.'), each label
goes through `toASCIILabel`, and the results are joined with '.'.
`none` models a raised UnicodeError. -/
def idnaEncode (s : String) : Option (List Nat) :=
  if s.data.isEmpty then some []
  else if s.data.all fun c => c.toNat < 128 then
    let labels := splitBy (fun c => c = '.') s.data
    if labels.dropLast.all (fun l => 0 < l.length && l.length < 64)
        && (labels.getLastD []).length < 64 then
      some (s.data.map fun c => c.toNat)
    else none
  else
    let labels0 := splitBy isIdnaDot s.data
    let hasTrailingDot := labels0.getLast? == some []
    let labels := if hasTrailingDot then labels0.dropLast else labels0
    (labels.mapM toASCIILabel).map fun enc =>
      List.intercalate [46] enc ++ (if hasTrailingDot then [46] else [])

/-- client.py constant RRTYPE_ANY. -/
def RRTYPE_ANY : String := "ANY"

/-- The path built by the function `_gen_rrset(prefix)` generates
(client.py lines 160-169), the factory's first argument written `pfx`
here: IDNA-encode the owner name, percent-encode it into
`<pfx>/rrset/name/<enc>`, append `/<rrtype>` when rrtype is truthy, and
for a truthy bailiwick insert `/ANY` when rrtype was falsy and append the
IDNA- and percent-encoded bailiwick.  `none` models `encode('idna')`
raising before any request is made. -/
def _gen_rrset (pfx owner_name : String) (rrtype bailiwick : Option String) :
    Option String :=
  (idnaEncode owner_name).bind fun ob =>
    let path := pfx ++ "/rrset/name/" ++ _quote ob
    let path := if strOptTruthy rrtype then path ++ "/" ++ rrtype.getD "" else path
    if strOptTruthy bailiwick then
      (idnaEncode (bailiwick.getD "")).map fun bb =>
        let path := if !strOptTruthy rrtype then path ++ "/" ++ RRTYPE_ANY else path
        path ++ "/" ++ _quote bb
    else some path

/-- The path built by `_gen_rdata_ip(prefix)` (client.py lines 227-229):
`<pfx>/rdata/ip/` followed by the ip argument with every '/' replaced by
',' (str.replace with single-character arguments) and nothing else
rewritten - no percent-encoding. -/
def _gen_rdata_ip (pfx ip : String) : String :=
  pfx ++ "/rdata/ip/" ++ String.mk (ip.data.map fun c => if c = '/' then ',' else c)

/-- The path built by `_gen_flex(method, key)` (client.py lines 272-277):
`<method>/<key>/<quote(value)>`, then `/<rrtype>` when rrtype is truthy.
The flex value is percent-encoded directly, with no IDNA step. -/
def _gen_flex (method key value : String) (rrtype : Option String) : String :=
  let path := method ++ "/" ++ key ++ "/" ++ quoteStr value
  if strOptTruthy rrtype then path ++ "/" ++ rrtype.getD "" else path

/-- The step machine agrees with the eager trace: one resumption of the
loop either exits with the outcome `handle_saf` reports (yielding
nothing), or yields the next object of the `handle_saf` trace and leaves
a suspension whose own trace is the remainder. -/
theorem handle_saf_eq_safLoop (lines : List RawLine) (ig : Bool) :
    handle_saf lines ig =
      match safLoop lines ig with
      | .exit o => ([], o)
      | .yld v s => (v :: (suspTrace s ig).1, (suspTrace s ig).2) := by
  induction lines with
  | nil => rfl
  | cons l rest ih =>
    cases l with
    | blank => simpa only [handle_saf, safLoop] using ih
    | malformed t => rfl
    | parsed v =>
      cases v with
      | dict fields =>
        simp only [handle_saf, safLoop]
        by_cases hb : optIsStr (pyGet fields "cond") "begin"
        · simpa only [hb, if_true] using ih
        · simp only [hb, if_false]
          by_cases hs : optIsStr (pyGet fields "cond") "succeeded"
          · simp [hs]
          · simp only [hs, if_false]
            by_cases ho : optTruthy (pyGet fields "obj")
            · simp only [ho, if_true]
              cases hc : condDispatch (pyGet fields "cond") (pyGet fields "msg") ig with
              | none => simp [suspTrace, hc]
              | some o => simp [suspTrace, hc]
            · simp only [ho, if_false, Bool.false_eq_true]
              cases hc : condDispatch (pyGet fields "cond") (pyGet fields "msg") ig with
              | none => simpa only [List.nil_append] using ih
              | some o => simp
      | null => rfl
      | bool b => rfl
      | int n => rfl
      | str s => rfl
      | arr elems => rfl

theorem optIsStr_ne {o : Option PyJson} {s t : String} (h : optIsStr o s = true)
    (hne : t ≠ s) : optIsStr o t = false := by
  match o with
  | none => rfl
  | some .null => rfl
  | some (.bool b) => rfl
  | some (.int n) => rfl
  | some (.arr l) => rfl
  | some (.dict l) => rfl
  | some (.str u) =>
    simp only [optIsStr, beq_iff_eq] at h
    subst h
    simp only [optIsStr, beq_eq_false_iff_ne, ne_eq]
    exact fun hh => hne hh.symm

theorem optTruthy_of_isStr {o : Option PyJson} {s : String} (h : optIsStr o s = true)
    (hs : s ≠ "") : optTruthy o = true := by
  match o with
  | none => exact absurd h (by simp [optIsStr])
  | some .null => exact absurd h (by simp [optIsStr])
  | some (.bool b) => exact absurd h (by simp [optIsStr])
  | some (.int n) => exact absurd h (by simp [optIsStr])
  | some (.arr l) => exact absurd h (by simp [optIsStr])
  | some (.dict l) => exact absurd h (by simp [optIsStr])
  | some (.str u) =>
    simp only [optIsStr, beq_iff_eq] at h
    subst h
    simpa [optTruthy, PyJson.truthy] using hs

/-- Running the decoder over a prefix of non-terminal lines delivers their
payloads and then behaves like the decoder on the remaining lines. -/
theorem handle_saf_append (pre tail : List RawLine) (ig : Bool)
    (h : ∀ l ∈ pre, nonTerminalLine l = true) :
    handle_saf (pre ++ tail) ig =
      (pre.flatMap lineYields ++ (handle_saf tail ig).1, (handle_saf tail ig).2) := by
  induction pre with
  | nil => simp
  | cons l pre ih =>
    have hl := h l (by simp)
    have hpre : ∀ x ∈ pre, nonTerminalLine x = true := fun x hx => h x (by simp [hx])
    cases l with
    | blank => simpa only [List.cons_append, handle_saf, lineYields,
        List.flatMap_cons, List.nil_append] using ih hpre
    | malformed t => simp [nonTerminalLine] at hl
    | parsed v =>
      cases v with
      | null => simp [nonTerminalLine] at hl
      | bool b => simp [nonTerminalLine] at hl
      | int n => simp [nonTerminalLine] at hl
      | str s => simp [nonTerminalLine] at hl
      | arr es => simp [nonTerminalLine] at hl
      | dict fields =>
        simp only [nonTerminalLine] at hl
        simp only [List.cons_append, handle_saf, List.flatMap_cons]
        cases hb : optIsStr (pyGet fields "cond") "begin" with
        | true =>
          simp only [if_true]
          simpa only [lineYields, hb, if_true, List.nil_append] using ih hpre
        | false =>
          simp only [hb, Bool.false_or] at hl
          have hs : optIsStr (pyGet fields "cond") "succeeded" = false := by
            cases hog : optIsStr (pyGet fields "cond") "ongoing" with
            | true => exact optIsStr_ne hog (by decide)
            | false =>
              simp only [hog, Bool.false_or, Bool.not_eq_true'] at hl
              cases hx : optIsStr (pyGet fields "cond") "succeeded" with
              | true => exact absurd (optTruthy_of_isStr hx (by decide)) (by simp [hl])
              | false => rfl
          have hd : condDispatch (pyGet fields "cond") (pyGet fields "msg") ig = none := by
            simp [condDispatch, hl]
          simp only [Bool.false_eq_true, if_false, hs, hd, List.append_eq]
          rw [ih hpre]
          simp [lineYields, hb, List.append_assoc]

/-- Once the generator has been started, every caller behavior - running
to completion, stopping on a raised error, or abandoning after any number
of yields - runs `res.close()` exactly once. -/
theorem runCaller_live (ig : Bool) :
    ∀ (k : Nat) (g : GenState), g.pos.isLive = true → g.closeCalls = 0 →
      (runCaller g ig (k + 1)).closeCalls = 1 := by
  intro k
  induction k with
  | zero =>
    intro g hl hc
    obtain ⟨pos, c⟩ := g
    simp only [GenState.closeCalls] at hc
    subst hc
    cases pos with
    | finished => simp [GenPos.isLive] at hl
    | created lines =>
      simp only [runCaller, genNext]
      cases safLoop lines ig with
      | yld v s => simp [stepFrom, runCaller, genClose]
      | exit o => simp [stepFrom]
    | suspendedAt s =>
      simp only [runCaller, genNext]
      cases resumeSuspended s ig with
      | yld v s2 => simp [stepFrom, runCaller, genClose]
      | exit o => simp [stepFrom]
  | succ k ih =>
    intro g hl hc
    obtain ⟨pos, c⟩ := g
    simp only [GenState.closeCalls] at hc
    subst hc
    cases pos with
    | finished => simp [GenPos.isLive] at hl
    | created lines =>
      simp only [runCaller, genNext]
      cases safLoop lines ig with
      | yld v s => simpa only [stepFrom] using ih ⟨.suspendedAt s, 0⟩ rfl rfl
      | exit o => simp [stepFrom]
    | suspendedAt s =>
      simp only [runCaller, genNext]
      cases resumeSuspended s ig with
      | yld v s2 => simpa only [stepFrom] using ih ⟨.suspendedAt s2, 0⟩ rfl rfl
      | exit o => simp [stepFrom]

theorem toNat_ofNat_of_lt {n : Nat} (h : n < 55296) : (Char.ofNat n).toNat = n := by
  rw [Char.ofNat, dif_pos (Or.inl h : n.isValidChar)]
  rfl

theorem hexVal_hexDigitChar (n : Nat) (h : n < 16) : hexVal (hexDigitChar n) = some n := by
  have hall : ∀ m, m < 16 → hexVal (hexDigitChar m) = some m := by decide
  exact hall n h

theorem isCont_of {b : Nat} (h1 : 128 ≤ b) (h2 : b < 192) : isCont b = true := by
  simp only [isCont, Bool.and_eq_true, decide_eq_true_eq]
  omega

theorem char_toNat_lt (c : Char) : c.toNat < 1114112 := by
  show c.val.toNat < 1114112
  rcases c.valid with h | ⟨_, h⟩ <;> omega

/-- Unfolding step of `utf8Decode` on a non-empty byte list. -/
theorem utf8Decode_cons (b0 : Nat) (rest : List Nat) :
    utf8Decode (b0 :: rest) =
      if b0 < 128 then (utf8Decode rest).map fun cs => Char.ofNat b0 :: cs
      else if b0 < 192 then none
      else if b0 < 224 then
        match rest with
        | b1 :: rest2 =>
          if isCont b1 then
            (utf8Decode rest2).map fun cs => Char.ofNat ((b0 - 192) * 64 + (b1 - 128)) :: cs
          else none
        | [] => none
      else if b0 < 240 then
        match rest with
        | b1 :: b2 :: rest2 =>
          if isCont b1 && isCont b2 then
            (utf8Decode rest2).map fun cs =>
              Char.ofNat ((b0 - 224) * 4096 + (b1 - 128) * 64 + (b2 - 128)) :: cs
          else none
        | _ => none
      else if b0 < 248 then
        match rest with
        | b1 :: b2 :: b3 :: rest2 =>
          if isCont b1 && isCont b2 && isCont b3 then
            (utf8Decode rest2).map fun cs =>
              Char.ofNat ((b0 - 240) * 262144 + (b1 - 128) * 4096 + (b2 - 128) * 64
                + (b3 - 128)) :: cs
          else none
        | _ => none
      else none := by
  cases rest with
  | nil => rfl
  | cons b1 r1 =>
    cases r1 with
    | nil => rfl
    | cons b2 r2 =>
      cases r2 with
      | nil => rfl
      | cons b3 r3 => rfl

/-- Unfolding step of `percentDecode` on a non-empty character list. -/
theorem percentDecode_cons (c : Char) (rest : List Char) :
    percentDecode (c :: rest) =
      if c = '%' then
        match rest with
        | h :: l :: rest2 =>
          match hexVal h, hexVal l, percentDecode rest2 with
          | some hv, some lv, some bs => some ((16 * hv + lv) :: bs)
          | _, _, _ => none
        | _ => none
      else (percentDecode rest).map fun bs => c.toNat :: bs := by
  cases rest with
  | nil => rfl
  | cons h r1 =>
    cases r1 with
    | nil => rfl
    | cons l r2 => rfl

/-- The UTF-8 bytes of any scalar value are bytes. -/
theorem utf8EncodeChar_lt (c : Char) : ∀ b ∈ utf8EncodeChar c.toNat, b < 256 := by
  have hv : c.toNat < 1114112 := char_toNat_lt c
  intro b hb
  by_cases h1 : c.toNat < 128
  · simp only [utf8EncodeChar, if_pos h1, List.mem_singleton] at hb
    omega
  · by_cases h2 : c.toNat < 2048
    · simp only [utf8EncodeChar, if_neg h1, if_pos h2, List.mem_cons,
        List.mem_singleton, List.not_mem_nil, or_false] at hb
      rcases hb with rfl | rfl <;> omega
    · by_cases h3 : c.toNat < 65536
      · simp only [utf8EncodeChar, if_neg h1, if_neg h2, if_pos h3, List.mem_cons,
          List.not_mem_nil, or_false] at hb
        rcases hb with rfl | rfl | rfl <;> omega
      · simp only [utf8EncodeChar, if_neg h1, if_neg h2, if_neg h3, List.mem_cons,
          List.not_mem_nil, or_false] at hb
        rcases hb with rfl | rfl | rfl | rfl <;> omega

/-- Decoding the UTF-8 encoding of one character in front of any byte
tail recovers the character. -/
theorem utf8Decode_encodeChar (c : Char) (bs : List Nat) :
    utf8Decode (utf8EncodeChar c.toNat ++ bs) = (utf8Decode bs).map fun cs => c :: cs := by
  have hv : c.toNat < 1114112 := char_toNat_lt c
  by_cases h1 : c.toNat < 128
  · rw [show utf8EncodeChar c.toNat = [c.toNat] from by rw [utf8EncodeChar, if_pos h1],
      List.singleton_append, utf8Decode_cons, if_pos h1, Char.ofNat_toNat]
  · by_cases h2 : c.toNat < 2048
    · rw [show utf8EncodeChar c.toNat = [192 + c.toNat / 64, 128 + c.toNat % 64] from
        by rw [utf8EncodeChar, if_neg h1, if_pos h2], List.cons_append, List.cons_append,
        List.nil_append, utf8Decode_cons, if_neg (by omega), if_neg (by omega),
        if_pos (by omega)]
      show (if isCont (128 + c.toNat % 64) = true then
          Option.map (fun cs => Char.ofNat ((192 + c.toNat / 64 - 192) * 64
            + (128 + c.toNat % 64 - 128)) :: cs) (utf8Decode bs)
        else none) = _
      rw [if_pos (isCont_of (by omega) (by omega)),
        show (192 + c.toNat / 64 - 192) * 64 + (128 + c.toNat % 64 - 128) = c.toNat by omega,
        Char.ofNat_toNat]
    · by_cases h3 : c.toNat < 65536
      · rw [show utf8EncodeChar c.toNat
            = [224 + c.toNat / 4096, 128 + c.toNat / 64 % 64, 128 + c.toNat % 64] from
          by rw [utf8EncodeChar, if_neg h1, if_neg h2, if_pos h3], List.cons_append,
          List.cons_append, List.cons_append, List.nil_append, utf8Decode_cons,
          if_neg (by omega), if_neg (by omega), if_neg (by omega), if_pos (by omega)]
        show (if (isCont (128 + c.toNat / 64 % 64) && isCont (128 + c.toNat % 64)) = true then
            Option.map (fun cs => Char.ofNat ((224 + c.toNat / 4096 - 224) * 4096
              + (128 + c.toNat / 64 % 64 - 128) * 64 + (128 + c.toNat % 64 - 128)) :: cs)
              (utf8Decode bs)
          else none) = _
        rw [if_pos (by rw [isCont_of (by omega : (128:Nat) ≤ 128 + c.toNat / 64 % 64) (by omega),
            isCont_of (by omega : (128:Nat) ≤ 128 + c.toNat % 64) (by omega)]; rfl),
          show (224 + c.toNat / 4096 - 224) * 4096 + (128 + c.toNat / 64 % 64 - 128) * 64
            + (128 + c.toNat % 64 - 128) = c.toNat by omega,
          Char.ofNat_toNat]
      · rw [show utf8EncodeChar c.toNat
            = [240 + c.toNat / 262144, 128 + c.toNat / 4096 % 64, 128 + c.toNat / 64 % 64,
               128 + c.toNat % 64] from
          by rw [utf8EncodeChar, if_neg h1, if_neg h2, if_neg h3], List.cons_append,
          List.cons_append, List.cons_append, List.cons_append, List.nil_append,
          utf8Decode_cons, if_neg (by omega), if_neg (by omega), if_neg (by omega),
          if_neg (by omega), if_pos (by omega)]
        show (if (isCont (128 + c.toNat / 4096 % 64) && isCont (128 + c.toNat / 64 % 64)
            && isCont (128 + c.toNat % 64)) = true then
            Option.map (fun cs => Char.ofNat ((240 + c.toNat / 262144 - 240) * 262144
              + (128 + c.toNat / 4096 % 64 - 128) * 4096 + (128 + c.toNat / 64 % 64 - 128) * 64
              + (128 + c.toNat % 64 - 128)) :: cs) (utf8Decode bs)
          else none) = _
        rw [if_pos (by rw [isCont_of (by omega : (128:Nat) ≤ 128 + c.toNat / 4096 % 64) (by omega),
            isCont_of (by omega : (128:Nat) ≤ 128 + c.toNat / 64 % 64) (by omega),
            isCont_of (by omega : (128:Nat) ≤ 128 + c.toNat % 64) (by omega)]; rfl),
          show (240 + c.toNat / 262144 - 240) * 262144 + (128 + c.toNat / 4096 % 64 - 128) * 4096
            + (128 + c.toNat / 64 % 64 - 128) * 64 + (128 + c.toNat % 64 - 128) = c.toNat by omega,
          Char.ofNat_toNat]

/-- UTF-8 decoding is a left inverse of UTF-8 encoding. -/
theorem utf8Decode_encodeList (cs : List Char) :
    utf8Decode (cs.flatMap fun c => utf8EncodeChar c.toNat) = some cs := by
  induction cs with
  | nil => rfl
  | cons c cs ih => rw [List.flatMap_cons, utf8Decode_encodeChar, ih]; rfl

/-- Percent-decoding is a left inverse of `_quote` on byte strings. -/
theorem percentDecode_quote (bs : List Nat) (h : ∀ b ∈ bs, b < 256) :
    percentDecode (_quote bs).data = some bs := by
  induction bs with
  | nil => rfl
  | cons b rest ih =>
    have hb : b < 256 := h b (List.mem_cons_self _ _)
    have hrest : ∀ x ∈ rest, x < 256 := fun x hx => h x (List.mem_cons_of_mem _ hx)
    have hdata : (_quote (b :: rest)).data
        = (if quoteSafe b then [Char.ofNat b]
           else ['%', hexDigitChar (b / 16), hexDigitChar (b % 16)]) ++ (_quote rest).data := rfl
    rw [hdata]
    by_cases hs : quoteSafe b
    · rw [if_pos hs, List.singleton_append, percentDecode_cons]
      have hne : ¬ (Char.ofNat b = '%') := by
        intro hEq
        have hb37 : b = 37 := by
          have := congrArg Char.toNat hEq
          rwa [toNat_ofNat_of_lt (by omega)] at this
        subst hb37
        exact absurd hs (by decide)
      rw [if_neg hne, ih hrest, toNat_ofNat_of_lt (by omega)]
      rfl
    · rw [if_neg hs, List.cons_append, List.cons_append, List.cons_append, List.nil_append,
        percentDecode_cons, if_pos rfl]
      show (match hexVal (hexDigitChar (b / 16)), hexVal (hexDigitChar (b % 16)),
          percentDecode (_quote rest).data with
        | some hv, some lv, some bs2 => some ((16 * hv + lv) :: bs2)
        | _, _, _ => none) = some (b :: rest)
      rw [hexVal_hexDigitChar _ (by omega), hexVal_hexDigitChar _ (by omega), ih hrest]
      show some ((16 * (b / 16) + b % 16) :: rest) = some (b :: rest)
      rw [show 16 * (b / 16) + b % 16 = b by omega]

/-- Percent-decoding plus UTF-8 decoding recovers any string `_quote`
percent-encoded from its UTF-8 bytes. -/
theorem unquote_quoteStr (s : String) : unquote (quoteStr s) = some s := by
  rw [unquote, quoteStr, percentDecode_quote _ ?bound]
  case bound =>
    intro b hb
    rw [utf8Encode] at hb
    rcases List.mem_flatMap.mp hb with ⟨c, _, hbc⟩
    exact utf8EncodeChar_lt c b hbc
  show (utf8Decode (utf8Encode s)).map _ = some s
  rw [utf8Encode, utf8Decode_encodeList]
  rfl

/-- An all-ASCII character list UTF-8-encodes to its code points. -/
theorem utf8Encode_ascii (cs : List Char) (h : ∀ c ∈ cs, c.toNat < 128) :
    (cs.flatMap fun c => utf8EncodeChar c.toNat) = cs.map fun c => c.toNat := by
  induction cs with
  | nil => rfl
  | cons c cs ih =>
    rw [List.flatMap_cons, List.map_cons, ih (fun x hx => h x (List.mem_cons_of_mem _ hx)),
      show utf8EncodeChar c.toNat = [c.toNat] from
        by rw [utf8EncodeChar, if_pos (h c (List.mem_cons_self _ _))],
      List.singleton_append]

/-- C1 (amended): for every decoded SAF line, if the condition is `begin`
or `succeeded` no payload is emitted even when an `obj` field is present
(for `succeeded` the run ends with the rest of the stream unread);
otherwise, if the `obj` field is present and truthy (in particular
non-empty), the decoder yields it as the next result object - including on
`limited` and `failed` lines, where that payload is delivered before the
corresponding error is raised. -/
theorem saf_line_payload (fields : List (String × PyJson)) (rest : List RawLine)
    (ig : Bool) :
    (optIsStr (pyGet fields "cond") "begin" = true →
      handle_saf (.parsed (.dict fields) :: rest) ig = handle_saf rest ig)
    ∧ (optIsStr (pyGet fields "cond") "succeeded" = true →
      handle_saf (.parsed (.dict fields) :: rest) ig = ([], .done))
    ∧ (∀ o : PyJson, pyGet fields "obj" = some o → o.truthy = true →
        optIsStr (pyGet fields "cond") "begin" = false →
        optIsStr (pyGet fields "cond") "succeeded" = false →
        (handle_saf (.parsed (.dict fields) :: rest) ig).1.head? = some o
        ∧ (optIsStr (pyGet fields "cond") "limited" = true → ig = false →
            handle_saf (.parsed (.dict fields) :: rest) ig
              = ([o], .queryLimited (pyGet fields "msg")))
        ∧ (optIsStr (pyGet fields "cond") "failed" = true →
            handle_saf (.parsed (.dict fields) :: rest) ig
              = ([o], .queryFailed (pyGet fields "msg")))) := by
  refine ⟨fun hb => by simp [handle_saf, hb], fun hs => ?_, fun o ho hot hb hs => ?_⟩
  · have hb : optIsStr (pyGet fields "cond") "begin" = false :=
      optIsStr_ne hs (by decide)
    simp [handle_saf, hb, hs]
  · have hys : (if optTruthy (pyGet fields "obj") = true
        then [(pyGet fields "obj").getD PyJson.null] else []) = [o] := by
      simp [ho, optTruthy, hot]
    refine ⟨?_, fun hl hig => ?_, fun hf => ?_⟩
    · simp only [handle_saf, hb, Bool.false_eq_true, if_false, hs, hys]
      cases condDispatch (pyGet fields "cond") (pyGet fields "msg") ig with
      | none => rfl
      | some oc => rfl
    · subst hig
      have hog : optIsStr (pyGet fields "cond") "ongoing" = false :=
        optIsStr_ne hl (by decide)
      have ht : optTruthy (pyGet fields "cond") = true :=
        optTruthy_of_isStr hl (by decide)
      simp [handle_saf, hb, hs, hys, condDispatch, hog, ht, hl]
    · have hog : optIsStr (pyGet fields "cond") "ongoing" = false :=
        optIsStr_ne hf (by decide)
      have hl : optIsStr (pyGet fields "cond") "limited" = false :=
        optIsStr_ne hf (by decide)
      have ht : optTruthy (pyGet fields "cond") = true :=
        optTruthy_of_isStr hf (by decide)
      simp [handle_saf, hb, hs, hys, condDispatch, hog, ht, hl, hf]

/-- C1, witness: a `begin` line with a payload emits nothing and a
`succeeded` line ends the run; a `failed` line with a truthy payload
delivers the payload and then the error. -/
theorem saf_line_payload_witness :
    handle_saf [.parsed (.dict [("cond", .str "begin"), ("obj", .int 1)]),
        .parsed (.dict [("cond", .str "succeeded"), ("obj", .int 2)])] false = ([], .done)
    ∧ handle_saf [.parsed (.dict [("cond", .str "failed"), ("obj", .int 7),
        ("msg", .str "boom")])] false = ([.int 7], .queryFailed (some (.str "boom"))) := by
  constructor
  · have h1 := (saf_line_payload [("cond", .str "begin"), ("obj", .int 1)]
      [.parsed (.dict [("cond", .str "succeeded"), ("obj", .int 2)])] false).1 rfl
    have h2 := (saf_line_payload [("cond", .str "succeeded"), ("obj", .int 2)] [] false).2.1 rfl
    rw [h1, h2]
  · exact ((saf_line_payload [("cond", .str "failed"), ("obj", .int 7), ("msg", .str "boom")]
      [] false).2.2 (.int 7) rfl rfl rfl rfl).2.2 rfl

/-- C1, counterexample to the claim as stated: on the line
`{"cond": "ongoing", "obj": {}}` the `obj` field is present, yet the
decoder yields nothing (the code tests `if obj:`, Python truthiness, and
the empty dict is falsy), and the run then ends in `QueryTruncated` with
an empty trace. -/
theorem saf_obj_present_not_yielded :
    handle_saf [.parsed (.dict [("cond", .str "ongoing"), ("obj", .dict [])])] false
      = ([], .queryTruncated) := rfl

/-- C2 (amended): a stream of non-terminal lines followed by a `limited`
line carrying a truthy `obj` yields the earlier payloads and that object,
then raises `QueryLimited` with the line's `msg`; with `ignore_limited`
the run instead ends successfully after yielding the object. -/
theorem saf_limited_behavior (pre rest : List RawLine) (fields : List (String × PyJson))
    (o : PyJson)
    (hpre : ∀ l ∈ pre, nonTerminalLine l = true)
    (hc : pyGet fields "cond" = some (.str "limited"))
    (ho : pyGet fields "obj" = some o) (hot : o.truthy = true) :
    handle_saf (pre ++ .parsed (.dict fields) :: rest) false
        = (pre.flatMap lineYields ++ [o], .queryLimited (pyGet fields "msg"))
    ∧ handle_saf (pre ++ .parsed (.dict fields) :: rest) true
        = (pre.flatMap lineYields ++ [o], .done) := by
  have hline : ∀ ig : Bool, handle_saf (.parsed (.dict fields) :: rest) ig
      = ([o], if ig then .done else .queryLimited (pyGet fields "msg")) := by
    intro ig
    have hlit : (PyJson.str "limited").truthy = true := rfl
    simp [handle_saf, hc, ho, condDispatch, optIsStr, optTruthy, hot, hlit]
  constructor
  · rw [handle_saf_append pre _ false hpre, hline false]
    simp
  · rw [handle_saf_append pre _ true hpre, hline true]
    simp

/-- C2, witness: begin then a limited line with payload 3 and message m:
without suppression the payload arrives and then QueryLimited m; with
suppression the run ends successfully after the payload. -/
theorem saf_limited_behavior_witness :
    handle_saf [.parsed (.dict [("cond", .str "begin")]),
        .parsed (.dict [("cond", .str "limited"), ("obj", .int 3), ("msg", .str "m")])] false
      = ([.int 3], .queryLimited (some (.str "m")))
    ∧ handle_saf [.parsed (.dict [("cond", .str "begin")]),
        .parsed (.dict [("cond", .str "limited"), ("obj", .int 3), ("msg", .str "m")])] true
      = ([.int 3], .done) := by
  have h := saf_limited_behavior [.parsed (.dict [("cond", .str "begin")])] []
    [("cond", .str "limited"), ("obj", .int 3), ("msg", .str "m")] (.int 3)
    (by decide) rfl rfl rfl
  exact ⟨h.1, h.2⟩

/-- C2, counterexample to the claim as stated: a `limited` line carrying
the `obj` `{}` (present but falsy) does not yield that object before
`QueryLimited` is raised - the trace is empty, where the claim promises
the object is yielded first. -/
theorem saf_limited_falsy_obj :
    handle_saf [.parsed (.dict [("cond", .str "limited"), ("obj", .dict []),
        ("msg", .str "limit reached")])] false
      = ([], .queryLimited (some (.str "limit reached"))) := rfl

/-- C3: a stream that ends without any terminal condition (every line is
blank or a parsed object whose cond is begin, ongoing or falsy/absent)
raises `QueryTruncated` after yielding the payloads the preceding lines
delivered. -/
theorem saf_truncated_on_eof (lines : List RawLine) (ig : Bool)
    (h : ∀ l ∈ lines, nonTerminalLine l = true) :
    handle_saf lines ig = (lines.flatMap lineYields, .queryTruncated) := by
  simpa [handle_saf] using handle_saf_append lines [] ig h

/-- C3, witness: begin, one ongoing payload and a blank line, then end of
input: the payload is yielded and the run ends in QueryTruncated. -/
theorem saf_truncated_on_eof_witness :
    handle_saf [.parsed (.dict [("cond", .str "begin")]),
        .parsed (.dict [("cond", .str "ongoing"), ("obj", .int 5)]), .blank] false
      = ([.int 5], .queryTruncated) :=
  saf_truncated_on_eof [.parsed (.dict [("cond", .str "begin")]),
    .parsed (.dict [("cond", .str "ongoing"), ("obj", .int 5)]), .blank] false (by decide)

/-- C4 (amended): an unparsable line raises ProtocolError naming the line,
ending the run after the earlier payloads; a parsed line whose cond is a
non-empty string outside the five known tags raises ProtocolError naming
the invalid tag, after yielding that line's obj when it is present and
truthy. -/
theorem saf_protocol_errors (pre rest : List RawLine) (ig : Bool) (text : String)
    (fields : List (String × PyJson)) (c : String)
    (hpre : ∀ l ∈ pre, nonTerminalLine l = true)
    (hc : pyGet fields "cond" = some (.str c))
    (hne : c ≠ "") (hb : c ≠ "begin") (hog : c ≠ "ongoing") (hs : c ≠ "succeeded")
    (hl : c ≠ "limited") (hf : c ≠ "failed") :
    handle_saf (pre ++ .malformed text :: rest) ig
        = (pre.flatMap lineYields, .protoErrorBadJson text)
    ∧ handle_saf (pre ++ .parsed (.dict fields) :: rest) ig
        = (pre.flatMap lineYields
            ++ (if optTruthy (pyGet fields "obj") then [(pyGet fields "obj").getD .null] else []),
           .protoErrorInvalidCond (.str c)) := by
  constructor
  · rw [handle_saf_append pre _ ig hpre]
    simp [handle_saf]
  · rw [handle_saf_append pre _ ig hpre]
    have hline : handle_saf (.parsed (.dict fields) :: rest) ig
        = ((if optTruthy (pyGet fields "obj") then [(pyGet fields "obj").getD .null] else []),
           .protoErrorInvalidCond (.str c)) := by
      simp [handle_saf, hc, condDispatch, optIsStr, optTruthy, PyJson.truthy,
        hne, hb, hog, hs, hl, hf]
    rw [hline]

/-- C4, witness: after a begin line, the unparsable line text raises
ProtocolError naming it, and the line `{"cond": "bogus", "obj": 9}` yields
9 then raises ProtocolError naming the tag bogus. -/
theorem saf_protocol_errors_witness :
    handle_saf [.parsed (.dict [("cond", .str "begin")]), .malformed "not json"] false
      = ([], .protoErrorBadJson "not json")
    ∧ handle_saf [.parsed (.dict [("cond", .str "begin")]),
        .parsed (.dict [("cond", .str "bogus"), ("obj", .int 9)])] false
      = ([.int 9], .protoErrorInvalidCond (.str "bogus")) := by
  have h := saf_protocol_errors [.parsed (.dict [("cond", .str "begin")])] [] false
    "not json" [("cond", .str "bogus"), ("obj", .int 9)] "bogus"
    (by decide) rfl (by decide) (by decide) (by decide) (by decide) (by decide) (by decide)
  exact ⟨h.1, h.2⟩

/-- C4, counterexample to the claim as stated: on
`{"cond": "bogus", "obj": {}}` the `obj` field is present, yet nothing is
yielded before the ProtocolError (the empty dict is falsy under the
code's `if obj:` test). -/
theorem saf_invalid_cond_falsy_obj :
    handle_saf [.parsed (.dict [("cond", .str "bogus"), ("obj", .dict [])])] false
      = ([], .protoErrorInvalidCond (.str "bogus")) := rfl

/-- C5 (amended): once iteration has begun, every exit path - normal
completion, any raised error, or abandonment after any number of yields -
runs `res.close()` exactly once; this holds for every stream, every
`ignore_limited` flag, and every caller that requests at least one
element. -/
theorem saf_close_exactly_once (lines : List RawLine) (ig : Bool) (k : Nat) :
    (runCaller (mkGen lines) ig (k + 1)).closeCalls = 1 :=
  runCaller_live ig k (mkGen lines) rfl rfl

/-- C5, counterexample to the claim as stated: a caller that abandons the
lazy sequence before requesting any element (zero `next()` calls, then
`close()`) is an exit path on which the response is never closed -
CPython does not run the `try/finally` of a generator whose frame never
started, so `res.close()` runs zero times, not once. -/
theorem saf_unstarted_abandonment_not_closed :
    (runCaller (mkGen [.parsed (.dict [("cond", .str "begin")]),
        .parsed (.dict [("obj", .dict [("a", .int 1)])]),
        .parsed (.dict [("cond", .str "succeeded")])]) false 0).closeCalls = 0 := rfl

/-- C10: a line that parses as valid JSON but is not a JSON object makes
the decoder raise `AttributeError` from `saf_msg.get` - an exception
outside the documented taxonomy, distinct from ProtocolError - and the
stream is still closed exactly once. -/
theorem saf_nondict_attribute_error (v : PyJson) (rest : List RawLine) (ig : Bool)
    (hv : v.isDict = false) :
    handle_saf (.parsed v :: rest) ig = ([], .attributeError)
    ∧ (∀ t, (Outcome.attributeError : Outcome) ≠ .protoErrorBadJson t)
    ∧ (∀ w, (Outcome.attributeError : Outcome) ≠ .protoErrorInvalidCond w)
    ∧ (runCaller (mkGen (.parsed v :: rest)) ig 1).closeCalls = 1 := by
  refine ⟨?_, fun t h => Outcome.noConfusion h, fun w h => Outcome.noConfusion h,
    runCaller_live ig 0 _ rfl rfl⟩
  cases v with
  | dict fields => simp [PyJson.isDict] at hv
  | null => rfl
  | bool b => rfl
  | int n => rfl
  | str s => rfl
  | arr es => rfl

/-- C10, witness: the stream whose only line is the JSON number 5 ends in
AttributeError with nothing yielded, and the stream is closed once. -/
theorem saf_nondict_attribute_error_witness :
    handle_saf [.parsed (.int 5)] false = ([], .attributeError)
    ∧ (runCaller (mkGen [.parsed (.int 5)]) false 1).closeCalls = 1 := by
  have h := saf_nondict_attribute_error (.int 5) [] false rfl
  exact ⟨h.1, h.2.2.2⟩

/-- C6 (amended): 401 and 403 raise AccessDenied, 416 OffsetError, 429
QuotaExceeded and 503 ConcurrencyExceeded, each carrying the response
body as message; every other 4xx or 5xx status raises the generic
QueryError, which is raised bare (from the transport's HTTPError) and so
carries no message of its own; a status outside 400-599 - including
non-2xx statuses such as 304 - raises nothing and the body is handed to
the SAF decoder.  In every raising case the result is the same for every
stream, so the decoder is never invoked. -/
theorem status_mapping (status : Nat) (text : String) (lines : List RawLine) (ig : Bool) :
    ((status = 401 ∨ status = 403) →
      _saf_query status text lines ig = .error (.accessDenied text))
    ∧ (status = 416 → _saf_query status text lines ig = .error (.offsetError text))
    ∧ (status = 429 → _saf_query status text lines ig = .error (.quotaExceeded text))
    ∧ (status = 503 → _saf_query status text lines ig = .error (.concurrencyExceeded text))
    ∧ (_STATUS_CODE_MAP status = none → raise_for_status_raises status = true →
        _saf_query status text lines ig = .error .queryError)
    ∧ (_STATUS_CODE_MAP status = none → raise_for_status_raises status = false →
        _saf_query status text lines ig = .ok (handle_saf lines ig)) := by
  refine ⟨fun h => ?_, fun h => ?_, fun h => ?_, fun h => ?_, fun h1 h2 => ?_, fun h1 h2 => ?_⟩
  · rcases h with rfl | rfl <;> rfl
  · subst h; rfl
  · subst h; rfl
  · subst h; rfl
  · simp [_saf_query, _raise_error, h1, h2]
  · simp [_saf_query, _raise_error, h1, h2]

/-- C6, witness: each mapped status raises its kind with the body text, an
unmapped 404 raises the bare QueryError, and a 200 hands the stream to the
decoder. -/
theorem status_mapping_witness :
    _saf_query 401 "key" [.malformed "x"] false = .error (.accessDenied "key")
    ∧ _saf_query 403 "denied" [.malformed "x"] false = .error (.accessDenied "denied")
    ∧ _saf_query 416 "off" [] false = .error (.offsetError "off")
    ∧ _saf_query 429 "quota" [] false = .error (.quotaExceeded "quota")
    ∧ _saf_query 503 "conc" [] false = .error (.concurrencyExceeded "conc")
    ∧ _saf_query 404 "not found" [] false = .error .queryError
    ∧ _saf_query 200 "" [.parsed (.dict [("cond", .str "succeeded")])] false
        = .ok ([], .done) :=
  ⟨(status_mapping 401 "key" [.malformed "x"] false).1 (Or.inl rfl),
   (status_mapping 403 "denied" [.malformed "x"] false).1 (Or.inr rfl),
   (status_mapping 416 "off" [] false).2.1 rfl,
   (status_mapping 429 "quota" [] false).2.2.1 rfl,
   (status_mapping 503 "conc" [] false).2.2.2.1 rfl,
   (status_mapping 404 "not found" [] false).2.2.2.2.1 rfl rfl,
   (status_mapping 200 "" [.parsed (.dict [("cond", .str "succeeded")])] false).2.2.2.2.2 rfl rfl⟩

/-- C6, counterexample to the claim as stated: 304 is a non-2xx status,
yet `_saf_query` raises nothing and invokes the decoder on the body; and
an unmapped 404 raises QueryError bare - the raised error does not depend
on the response body, so it cannot carry the body text as its message. -/
theorem status_mapping_counterexample :
    _saf_query 304 "not modified" [.parsed (.dict [("cond", .str "succeeded")])] false
      = .ok ([], .done)
    ∧ _saf_query 404 "not found" [] false = .error .queryError
    ∧ _saf_query 404 "not found" [] false = _saf_query 404 "a different body" [] false :=
  ⟨rfl, rfl, rfl⟩

/-- C7: the rrset path is `<pfx>/rrset/name/` plus the IDNA- then
percent-encoded owner name; a truthy rrtype is appended as the next
segment; a truthy bailiwick appends the token ANY exactly when rrtype was
falsy, followed by the IDNA- then percent-encoded bailiwick; falsy (None
or empty) optional fields contribute no path segment. -/
theorem rrset_path (pfx owner r bw : String) (ob bb : List Nat)
    (ho : idnaEncode owner = some ob) (hb : idnaEncode bw = some bb)
    (hr : r ≠ "") (hbw : bw ≠ "") :
    _gen_rrset pfx owner none none = some (pfx ++ "/rrset/name/" ++ _quote ob)
    ∧ _gen_rrset pfx owner (some "") none = some (pfx ++ "/rrset/name/" ++ _quote ob)
    ∧ _gen_rrset pfx owner (some r) none
        = some (pfx ++ "/rrset/name/" ++ _quote ob ++ "/" ++ r)
    ∧ _gen_rrset pfx owner none (some bw)
        = some (pfx ++ "/rrset/name/" ++ _quote ob ++ "/" ++ RRTYPE_ANY ++ "/" ++ _quote bb)
    ∧ _gen_rrset pfx owner (some r) (some bw)
        = some (pfx ++ "/rrset/name/" ++ _quote ob ++ "/" ++ r ++ "/" ++ _quote bb)
    ∧ _gen_rrset pfx owner (some "") (some "") = some (pfx ++ "/rrset/name/" ++ _quote ob) := by
  refine ⟨?_, ?_, ?_, ?_, ?_, ?_⟩ <;>
    simp [_gen_rrset, ho, hb, strOptTruthy, hr, hbw]

/-- C7, witness: all four shapes of the rrset path on concrete inputs. -/
theorem rrset_path_witness :
    _gen_rrset "lookup" "www.example.com" none none
      = some "lookup/rrset/name/www.example.com"
    ∧ _gen_rrset "lookup" "www.example.com" (some "A") none
      = some "lookup/rrset/name/www.example.com/A"
    ∧ _gen_rrset "lookup" "www.example.com" none (some "example.com")
      = some "lookup/rrset/name/www.example.com/ANY/example.com"
    ∧ _gen_rrset "lookup" "www.example.com" (some "A") (some "example.com")
      = some "lookup/rrset/name/www.example.com/A/example.com"
    ∧ _gen_rrset "lookup" "www.example.com" (some "") none
      = some "lookup/rrset/name/www.example.com" := by
  have h := rrset_path "lookup" "www.example.com" "A" "example.com"
    (utf8Encode "www.example.com") (utf8Encode "example.com") rfl rfl
    (by decide) (by decide)
  exact ⟨h.1, h.2.2.1, h.2.2.2.1, h.2.2.2.2.1, h.2.1⟩

/-- C8: the rdata-by-IP path is `<pfx>/rdata/ip/` plus the ip argument
with every '/' rewritten to ',' and every other character unchanged (no
percent-encoding); the CIDR input 1.2.3.0/24 composes to the segment
1.2.3.0,24, and an input without '/' passes through verbatim. -/
theorem rdata_ip_path (pfx ip : String) :
    _gen_rdata_ip pfx "1.2.3.0/24" = pfx ++ "/rdata/ip/" ++ "1.2.3.0,24"
    ∧ _gen_rdata_ip pfx ip
        = pfx ++ "/rdata/ip/" ++ String.mk (ip.data.map fun c => if c = '/' then ',' else c)
    ∧ ('/' ∉ ip.data → _gen_rdata_ip pfx ip = pfx ++ "/rdata/ip/" ++ ip) := by
  refine ⟨rfl, rfl, fun h => ?_⟩
  have hmap : ip.data.map (fun c => if c = '/' then ',' else c) = ip.data := by
    conv_rhs => rw [← List.map_id ip.data]
    exact List.map_congr_left fun c hc => if_neg fun hEq => h (by rwa [hEq] at hc)
  show pfx ++ "/rdata/ip/" ++ String.mk (ip.data.map fun c => if c = '/' then ',' else c) = _
  rw [hmap]

/-- C8, witness: the CIDR, plain IPv4, IPv6 and range forms. -/
theorem rdata_ip_path_witness :
    _gen_rdata_ip "lookup" "1.2.3.0/24" = "lookup/rdata/ip/1.2.3.0,24"
    ∧ _gen_rdata_ip "lookup" "1.2.3.4" = "lookup/rdata/ip/1.2.3.4"
    ∧ _gen_rdata_ip "summarize" "2001:db8::1" = "summarize/rdata/ip/2001:db8::1"
    ∧ _gen_rdata_ip "lookup" "1.2.3.4-5.6.7.8" = "lookup/rdata/ip/1.2.3.4-5.6.7.8" :=
  ⟨(rdata_ip_path "lookup" "").1,
   (rdata_ip_path "lookup" "1.2.3.4").2.2 (by decide),
   (rdata_ip_path "summarize" "2001:db8::1").2.2 (by decide),
   (rdata_ip_path "lookup" "1.2.3.4-5.6.7.8").2.2 (by decide)⟩

/-- C9 (amended): percent-decoding the percent-encoded path segments
round-trips to the string `_quote` was given: the flex value segment
decodes back to the original subject for every subject, including ones
with '/', ',', spaces and non-ASCII characters; the rrset owner segment
decodes back to the IDNA encoding of the subject, which equals the
original subject when the subject is all-ASCII (so ASCII subjects with
'/', ',' or spaces round-trip, while non-ASCII domain subjects decode to
their IDNA form instead of the original). -/
theorem percent_roundtrip (bs : List Nat) (m k value pfx owner : String) (ob : List Nat) :
    ((∀ b ∈ bs, b < 256) → percentDecode (_quote bs).data = some bs)
    ∧ unquote (quoteStr value) = some value
    ∧ _gen_flex m k value none = m ++ "/" ++ k ++ "/" ++ quoteStr value
    ∧ (idnaEncode owner = some ob →
        _gen_rrset pfx owner none none = some (pfx ++ "/rrset/name/" ++ _quote ob)
        ∧ ((∀ c ∈ owner.data, c.toNat < 128) → unquote (_quote ob) = some owner)) := by
  refine ⟨percentDecode_quote bs, unquote_quoteStr value, rfl, fun ho => ⟨?_, fun ha => ?_⟩⟩
  · simp [_gen_rrset, ho, strOptTruthy]
  · have hob : ob = owner.data.map fun c => c.toNat := by
      by_cases h0 : owner.data.isEmpty
      · rw [idnaEncode, if_pos h0] at ho
        cases owner with
        | mk data =>
          cases data with
          | nil => exact (Option.some.injEq _ _ ▸ ho).symm
          | cons c cs => simp at h0
      · have hall : owner.data.all (fun c => c.toNat < 128) = true := by
          rw [List.all_eq_true]
          intro c hc
          exact decide_eq_true (ha c hc)
        rw [idnaEncode, if_neg h0, if_pos hall] at ho
        have ho2 : (if ((splitBy (fun c => decide (c = '.')) owner.data).dropLast.all
              (fun l => decide (0 < l.length) && decide (l.length < 64))
              && decide (((splitBy (fun c => decide (c = '.')) owner.data).getLastD []).length
                < 64)) = true then
            some (List.map (fun c => c.toNat) owner.data) else none) = some ob := ho
        split at ho2
        · exact (Option.some.injEq _ _ ▸ ho2).symm
        · exact absurd ho2 (by simp)
    subst hob
    rw [unquote, percentDecode_quote _ (fun b hb => ?bound)]
    case bound =>
      rcases List.mem_map.mp hb with ⟨c, hc, rfl⟩
      have := ha c hc
      omega
    show (utf8Decode (owner.data.map fun c => c.toNat)).map (fun cs => String.mk cs) = some owner
    rw [← utf8Encode_ascii owner.data ha, utf8Decode_encodeList]
    rfl

/-- C9, witness: a flex pattern with '/', ',', a space and a non-ASCII
character round-trips through quote and unquote; an all-ASCII owner name
with '/' and ',' round-trips through the rrset segment. -/
theorem percent_roundtrip_witness :
    unquote (quoteStr "a b,c/dü") = some "a b,c/dü"
    ∧ _gen_flex "regex" "rrnames" "a b,c/dü" none
        = "regex/rrnames/" ++ quoteStr "a b,c/dü"
    ∧ _gen_rrset "lookup" "de/f,g h" none none
        = some ("lookup/rrset/name/" ++ _quote (utf8Encode "de/f,g h"))
    ∧ unquote (_quote (utf8Encode "de/f,g h")) = some "de/f,g h" := by
  have h := percent_roundtrip [] "regex" "rrnames" "a b,c/dü" "lookup" "de/f,g h"
    (utf8Encode "de/f,g h")
  have h4 := h.2.2.2 rfl
  exact ⟨h.2.1, h.2.2.1, h4.1, h4.2 (by decide)⟩

/-- C9, counterexample to the claim as stated: the non-ASCII owner name
bücher.de is a subject containing non-ASCII characters, its rrset path
segment is the IDNA encoding xn--bcher-kva.de (no byte needs
percent-escaping), and percent-decoding that segment yields
xn--bcher-kva.de, not the original subject bücher.de. -/
theorem rrset_nonascii_not_roundtrip :
    _gen_rrset "lookup" "bücher.de" none none = some "lookup/rrset/name/xn--bcher-kva.de"
    ∧ unquote "xn--bcher-kva.de" = some "xn--bcher-kva.de"
    ∧ ("xn--bcher-kva.de" : String) ≠ "bücher.de" :=
  ⟨rfl, rfl, by decide⟩

end Dnsdb2
